import Mathlib

/-!
Verification of the sphere-primitive capabilities of the Fast-BVH example
program `examples/CubeOfSpheres.cpp`.

The floating-point arithmetic of the source is embedded as exact real
arithmetic over `ℝ`; `std::sqrt` becomes `Real.sqrt`.  The `FastBVH` header
types used by the example (`Vector3`, `BBox`, `Ray`, `Intersection`) are not
part of the example file; they are modelled from the specification's data
model, as noted on each definition.
-/

set_option genSizeOfSpec false
set_option genInjectivity false

noncomputable section

/-- Three-component real vector.  Modelled from the spec: `Vector3` is a
"3-component real-valued vector with arithmetic, dot, cross, normalize;
treated as a pre-existing math primitive" (the header `FastBVH/Vector3.h`
is not under `src/`). -/
structure Vec3 where
  x : ℝ
  y : ℝ
  z : ℝ

/-- Componentwise vector addition. -/
def Vec3.add (a b : Vec3) : Vec3 :=
  ⟨a.x + b.x, a.y + b.y, a.z + b.z⟩

/-- Componentwise vector subtraction. -/
def Vec3.sub (a b : Vec3) : Vec3 :=
  ⟨a.x - b.x, a.y - b.y, a.z - b.z⟩

/-- Vector times scalar, as in the C++ expression `v * k`. -/
def Vec3.smul (a : Vec3) (k : ℝ) : Vec3 :=
  ⟨a.x * k, a.y * k, a.z * k⟩

/-- Dot product of two vectors. -/
def Vec3.dot (a b : Vec3) : ℝ :=
  a.x * b.x + a.y * b.y + a.z * b.z

/-- Euclidean length of a vector. -/
def Vec3.norm (a : Vec3) : ℝ :=
  Real.sqrt (Vec3.dot a a)

/-- Modelled from the spec: `normalize` scales a vector to unit length,
`v * (1 / |v|)` (the header implementation is not under `src/`). -/
def Vec3.normalize (a : Vec3) : Vec3 :=
  Vec3.smul a (1 / Vec3.norm a)

/-- The sphere primitive of `CubeOfSpheres.cpp` (lines 28-35): a center
together with the radius `r` and the stored squared radius `r2`. -/
structure Sphere where
  center : Vec3
  r : ℝ
  r2 : ℝ

/-- The sphere constructor `Sphere(center, radius)` (lines 33-34), which
initializes `r2` to `radius * radius`. -/
def Sphere.mk' (center : Vec3) (radius : ℝ) : Sphere :=
  ⟨center, radius, radius * radius⟩

/-- Modelled from the spec: a `Ray` is `{origin, direction}` with
parametrization `point(t) = origin + t * direction`; the example uses the
field names `o` and `d`. -/
structure Ray where
  o : Vec3
  d : Vec3

/-- Modelled from the spec: `Intersection` is a boolean-convertible result;
the "empty/default state == no hit == converts to false"; the populated
state carries the hit distance `t`, a reference to the hit primitive, and a
surface normal. -/
inductive Intersection where
  | miss : Intersection
  | hit : ℝ → Sphere → Vec3 → Intersection

/-- Modelled from the spec: a `BBox` is a pair of `{min, max}` corners;
the example constructs one with `BBox(min, max)`. -/
structure BBox where
  min : Vec3
  max : Vec3

/-- `SphereBoxConverter::operator()` (lines 46-54): the bounding box of a
sphere, `BBox(center - {r,r,r}, center + {r,r,r})`. -/
def sphereBoxConverter (sphere : Sphere) : BBox :=
  let r := sphere.r
  let box_delta : Vec3 := ⟨r, r, r⟩
  BBox.mk (Vec3.sub sphere.center box_delta) (Vec3.add sphere.center box_delta)

/-- `SphereIntersector::operator()` (lines 67-94): sphere-ray intersection
by the quadratic discriminant, returning the default `Intersection` when the
discriminant is negative, and otherwise a populated one at `t = sd - sqrt(disc)`. -/
def sphereIntersect (sphere : Sphere) (ray : Ray) : Intersection :=
  let center := sphere.center
  let r2 := sphere.r2
  let s := Vec3.sub center ray.o
  let sd := Vec3.dot s ray.d
  let ss := Vec3.dot s s
  let disc := sd * sd - ss + r2
  if disc < 0 then
    Intersection.miss
  else
    let t := sd - Real.sqrt disc
    let hit_pos := Vec3.add ray.o (Vec3.smul ray.d t)
    let normal := Vec3.normalize (Vec3.sub hit_pos sphere.center)
    Intersection.hit t sphere normal

/-- Call-level embedding of `SphereIntersector::operator()`: both arguments
are passed by const reference and the body performs no write through either,
so the call returns the intersection together with the (unchanged) post-call
values of the two arguments. -/
def sphereIntersectCall (sphere : Sphere) (ray : Ray) :
    Intersection × Sphere × Ray :=
  (sphereIntersect sphere ray, sphere, ray)

/-- The quantity `sd = dot(center - origin, direction)` computed at line 73. -/
def raySD (sphere : Sphere) (ray : Ray) : ℝ :=
  Vec3.dot (Vec3.sub sphere.center ray.o) ray.d

/-- The quantity `ss = dot(s, s)` computed at line 74. -/
def raySS (sphere : Sphere) (ray : Ray) : ℝ :=
  Vec3.dot (Vec3.sub sphere.center ray.o) (Vec3.sub sphere.center ray.o)

/-- The discriminant `sd*sd - ss + r2` computed at line 77. -/
def sphereDisc (sphere : Sphere) (ray : Ray) : ℝ :=
  raySD sphere ray * raySD sphere ray - raySS sphere ray + sphere.r2

/-- The point `origin + t * direction` of a ray, as in line 86. -/
def rayPoint (ray : Ray) (t : ℝ) : Vec3 :=
  Vec3.add ray.o (Vec3.smul ray.d t)

/-- `rand01` (lines 18-20): `rand() * (1.f / RAND_MAX)`, with the raw value
of `rand()` and the value of `RAND_MAX` taken as parameters. -/
def rand01 (RM : ℝ) (x : ℝ) : ℝ :=
  x * (1 / RM)

/-- `randVector3` (lines 23-25): a vector of three `rand01` samples, scaled
by 2 and shifted by `{1,1,1}`, so that each component lies in `[-1, 1]`. -/
def randVector3 (RM : ℝ) (a b c : ℝ) : Vec3 :=
  Vec3.sub (Vec3.smul ⟨rand01 RM a, rand01 RM b, rand01 RM c⟩ 2) ⟨1, 1, 1⟩

/-- The scene-construction loop of `main` (lines 107-109): `n` spheres of
radius `.005f`, each centered at `randVector3()`, consuming three successive
values of the `rand()` stream per sphere. -/
def buildObjects (RM : ℝ) (stream : ℕ → ℝ) (n : ℕ) : List Sphere :=
  (List.range n).map fun i =>
    Sphere.mk' (randVector3 RM (stream (3 * i)) (stream (3 * i + 1)) (stream (3 * i + 2)))
      (5 / 1000)

/-- The direction of the ray constructed at line 157 of `main`:
`normalize(camera_u*u + camera_v*v + camera_dir*fov)`. -/
def mainRayDirection (cu cv cd : Vec3) (u v fov : ℝ) : Vec3 :=
  Vec3.normalize (Vec3.add (Vec3.add (Vec3.smul cu u) (Vec3.smul cv v)) (Vec3.smul cd fov))

/-- Unfolding of `sphereIntersect` in terms of the named quantities. -/
lemma sphereIntersect_eq (sphere : Sphere) (ray : Ray) :
    sphereIntersect sphere ray =
      if sphereDisc sphere ray < 0 then Intersection.miss
      else
        Intersection.hit (raySD sphere ray - Real.sqrt (sphereDisc sphere ray)) sphere
          (Vec3.normalize
            (Vec3.sub (rayPoint ray (raySD sphere ray - Real.sqrt (sphereDisc sphere ray)))
              sphere.center)) :=
  rfl

/-- Shifting the subtrahend across an addition. -/
lemma shift_sub (o d c : ℝ) : o + d - c = d - (c - o) := by
  rw [sub_sub_eq_add_sub, add_comm]

/-- Expansion of the square of a difference, in product form. -/
lemma quad_expand (u s : ℝ) : (u - s) * (u - s) = u * u - 2 * (u * s) + s * s := by
  rw [← pow_two, sub_sq, pow_two, pow_two, mul_assoc]

/-- Regrouping of the square of a scaled direction component. -/
lemma sq_group (d t : ℝ) : d * t * (d * t) = t * t * (d * d) := by
  rw [mul_mul_mul_comm, mul_comm (d * d) (t * t)]

/-- Regrouping of a cross term of the quadratic expansion. -/
lemma cross_group (d t s : ℝ) : d * t * s = t * (s * d) := by
  rw [mul_comm d t, mul_assoc, mul_comm d s]

/-- Collecting a sum of three quadratic component expansions by like terms. -/
lemma sum3_regroup (A1 B1 C1 A2 B2 C2 A3 B3 C3 : ℝ) :
    (A1 - B1 + C1) + (A2 - B2 + C2) + (A3 - B3 + C3) =
      (A1 + A2 + A3) - (B1 + B2 + B3) + (C1 + C2 + C3) := by
  linarith

/-- Squared distance from the ray point at parameter `t` to the sphere
center, as a quadratic in `t`, for a unit-length ray direction. -/
lemma surface_quadratic (sphere : Sphere) (ray : Ray) (hd : Vec3.dot ray.d ray.d = 1) (t : ℝ) :
    Vec3.dot (Vec3.sub (rayPoint ray t) sphere.center) (Vec3.sub (rayPoint ray t) sphere.center) =
      t * t - 2 * t * raySD sphere ray + raySS sphere ray := by
  have hd' : ray.d.x * ray.d.x + ray.d.y * ray.d.y + ray.d.z * ray.d.z = 1 := hd
  have hTT : t * t * (ray.d.x * ray.d.x) + t * t * (ray.d.y * ray.d.y) +
      t * t * (ray.d.z * ray.d.z) = t * t := by
    rw [← mul_add, ← mul_add, hd', mul_one]
  have hU : 2 * t * ((sphere.center.x - ray.o.x) * ray.d.x +
        (sphere.center.y - ray.o.y) * ray.d.y + (sphere.center.z - ray.o.z) * ray.d.z) =
      2 * (t * ((sphere.center.x - ray.o.x) * ray.d.x)) +
        2 * (t * ((sphere.center.y - ray.o.y) * ray.d.y)) +
        2 * (t * ((sphere.center.z - ray.o.z) * ray.d.z)) := by
    rw [mul_assoc, mul_add, mul_add, mul_add, mul_add]
  show (ray.o.x + ray.d.x * t - sphere.center.x) * (ray.o.x + ray.d.x * t - sphere.center.x) +
      (ray.o.y + ray.d.y * t - sphere.center.y) * (ray.o.y + ray.d.y * t - sphere.center.y) +
      (ray.o.z + ray.d.z * t - sphere.center.z) * (ray.o.z + ray.d.z * t - sphere.center.z) =
    t * t - 2 * t * ((sphere.center.x - ray.o.x) * ray.d.x +
      (sphere.center.y - ray.o.y) * ray.d.y + (sphere.center.z - ray.o.z) * ray.d.z) +
      ((sphere.center.x - ray.o.x) * (sphere.center.x - ray.o.x) +
        (sphere.center.y - ray.o.y) * (sphere.center.y - ray.o.y) +
        (sphere.center.z - ray.o.z) * (sphere.center.z - ray.o.z))
  rw [shift_sub ray.o.x (ray.d.x * t) sphere.center.x,
    shift_sub ray.o.y (ray.d.y * t) sphere.center.y,
    shift_sub ray.o.z (ray.d.z * t) sphere.center.z,
    quad_expand (ray.d.x * t) (sphere.center.x - ray.o.x),
    quad_expand (ray.d.y * t) (sphere.center.y - ray.o.y),
    quad_expand (ray.d.z * t) (sphere.center.z - ray.o.z),
    sq_group ray.d.x t, sq_group ray.d.y t, sq_group ray.d.z t,
    cross_group ray.d.x t (sphere.center.x - ray.o.x),
    cross_group ray.d.y t (sphere.center.y - ray.o.y),
    cross_group ray.d.z t (sphere.center.z - ray.o.z),
    sum3_regroup, hTT, ← hU]

/-- Rearranging a sum against a subtracted discriminant expression. -/
lemma add_sub_shuffle (X s p r : ℝ) : X + p - r = (X + s) - (s - p + r) := by
  rw [sub_add_eq_sub_sub, sub_sub_eq_add_sub, add_right_comm, add_sub_cancel_right]

/-- Completing the square: the quadratic of `surface_quadratic` shifted by
`rr` equals the difference of the squares of `t - sd` and of a square root
`q` of the discriminant. -/
lemma key_identity (t sd q ss rr : ℝ) (hq : q * q = sd * sd - ss + rr) :
    t * t - 2 * t * sd + ss - rr = (t - sd) * (t - sd) - q * q := by
  rw [quad_expand t sd, hq, mul_assoc 2 t sd]
  exact add_sub_shuffle (t * t - 2 * (t * sd)) (sd * sd) ss rr

/-- The square root of the discriminant squares to `sd*sd - ss + r*r` when
the discriminant is nonnegative and `r2` stores the squared radius. -/
lemma sqrt_disc_sq (sphere : Sphere) (ray : Ray) (hdisc : 0 ≤ sphereDisc sphere ray)
    (hr2 : sphere.r2 = sphere.r * sphere.r) :
    Real.sqrt (sphereDisc sphere ray) * Real.sqrt (sphereDisc sphere ray) =
      raySD sphere ray * raySD sphere ray - raySS sphere ray + sphere.r * sphere.r :=
  (Real.mul_self_sqrt hdisc).trans
    (congrArg (fun w => raySD sphere ray * raySD sphere ray - raySS sphere ray + w) hr2)

/-- The hit point at `t = sd - sqrt(disc)` lies on the sphere surface when
the discriminant is nonnegative, the direction is unit length, and the
stored `r2` is the squared radius. -/
lemma surface_at_first_root (sphere : Sphere) (ray : Ray)
    (hd : Vec3.dot ray.d ray.d = 1) (hdisc : 0 ≤ sphereDisc sphere ray)
    (hr2 : sphere.r2 = sphere.r * sphere.r) :
    Vec3.dot
        (Vec3.sub (rayPoint ray (raySD sphere ray - Real.sqrt (sphereDisc sphere ray)))
          sphere.center)
        (Vec3.sub (rayPoint ray (raySD sphere ray - Real.sqrt (sphereDisc sphere ray)))
          sphere.center) =
      sphere.r * sphere.r := by
  have h := key_identity (raySD sphere ray - Real.sqrt (sphereDisc sphere ray))
    (raySD sphere ray) (Real.sqrt (sphereDisc sphere ray)) (raySS sphere ray)
    (sphere.r * sphere.r) (sqrt_disc_sq sphere ray hdisc hr2)
  rw [sub_sub_cancel_left, neg_mul_neg, sub_self] at h
  rw [surface_quadratic sphere ray hd]
  exact sub_eq_zero.mp h

/-- Any real parameter whose shifted square matches the discriminant's
square root is at least `sd - sqrt(disc)`. -/
lemma ge_first_root (t sd q : ℝ) (hq : 0 ≤ q) (h : (t - sd) * (t - sd) = q * q) :
    sd - q ≤ t := by
  rcases mul_self_eq_mul_self_iff.mp h with h1 | h1
  · rw [sub_eq_iff_eq_add.mp h1]
    exact sub_le_iff_le_add.mpr
      (le_trans (le_add_of_nonneg_left hq) (le_add_of_nonneg_right hq))
  · rw [sub_eq_iff_eq_add.mp h1]
    exact le_of_eq ((sub_eq_add_neg sd q).trans (add_comm sd (-q)))

/-- The dot product of a vector with itself is a sum of squares. -/
lemma dot_self_nonneg (a : Vec3) : 0 ≤ Vec3.dot a a :=
  add_nonneg (add_nonneg (mul_self_nonneg a.x) (mul_self_nonneg a.y)) (mul_self_nonneg a.z)

/-- Scaling a vector scales its squared length by the square of the factor. -/
lemma dot_smul_smul (a : Vec3) (k : ℝ) :
    Vec3.dot (Vec3.smul a k) (Vec3.smul a k) = k * k * Vec3.dot a a := by
  show a.x * k * (a.x * k) + a.y * k * (a.y * k) + a.z * k * (a.z * k) =
    k * k * (a.x * a.x + a.y * a.y + a.z * a.z)
  rw [mul_mul_mul_comm a.x k a.x k, mul_mul_mul_comm a.y k a.y k, mul_mul_mul_comm a.z k a.z k,
    ← add_mul, ← add_mul, mul_comm (a.x * a.x + a.y * a.y + a.z * a.z) (k * k)]

/-- A vector with positive squared length normalizes to a unit vector. -/
lemma dot_normalize_self (v : Vec3) (hv : 0 < Vec3.dot v v) :
    Vec3.dot (Vec3.normalize v) (Vec3.normalize v) = 1 := by
  have hnn : Vec3.norm v * Vec3.norm v = Vec3.dot v v := Real.mul_self_sqrt hv.le
  have hne : Vec3.norm v ≠ 0 := by
    intro h
    rw [h, zero_mul] at hnn
    exact hv.ne' hnn.symm
  show Vec3.dot (Vec3.smul v (1 / Vec3.norm v)) (Vec3.smul v (1 / Vec3.norm v)) = 1
  rw [dot_smul_smul, ← hnn, one_div_mul_one_div, one_div_mul_cancel (mul_ne_zero hne hne)]

/-- Cancellation of `Vec3` addition against subtraction. -/
lemma vec3_sub_add_cancel (c d : Vec3) : Vec3.sub (Vec3.add c d) c = d := by
  show Vec3.mk (c.x + d.x - c.x) (c.y + d.y - c.y) (c.z + d.z - c.z) = d
  rw [add_sub_cancel_left, add_sub_cancel_left, add_sub_cancel_left]

/-- Length of a vector whose squared length is a known square. -/
lemma norm_of_dot_eq (v : Vec3) (k : ℝ) (hk : 0 ≤ k) (h : Vec3.dot v v = k * k) :
    Vec3.norm v = k := by
  show Real.sqrt (Vec3.dot v v) = k
  rw [h, Real.sqrt_mul_self hk]

/-- Bounding the factors of a square by the square of a nonnegative bound. -/
lemma mul_self_le_bound (a r : ℝ) (hr : 0 ≤ r) (h : a * a ≤ r * r) : -r ≤ a ∧ a ≤ r :=
  abs_le_of_sq_le_sq' (by rw [pow_two, pow_two]; exact h) hr

/-- A coordinate whose offset from `c` has square at most `r*r` lies in
`[c - r, c + r]`. -/
lemma component_range (a c r : ℝ) (hr : 0 ≤ r) (h : (a - c) * (a - c) ≤ r * r) :
    c - r ≤ a ∧ a ≤ c + r := by
  obtain ⟨h1, h2⟩ := mul_self_le_bound (a - c) r hr h
  constructor
  · have h1' : -(a - c) ≤ r := neg_le.mp h1
    rw [neg_sub] at h1'
    exact sub_le_comm.mp h1'
  · exact sub_le_iff_le_add'.mp h2

/-- Each summand of a bounded sum of three nonnegative terms is bounded. -/
lemma sum3_le (A B C rr : ℝ) (hA : 0 ≤ A) (hB : 0 ≤ B) (hC : 0 ≤ C)
    (h : A + B + C ≤ rr) : A ≤ rr ∧ B ≤ rr ∧ C ≤ rr :=
  ⟨le_trans (le_trans (le_add_of_nonneg_right hB) (le_add_of_nonneg_right hC)) h,
    le_trans (le_trans (le_add_of_nonneg_left hA) (le_add_of_nonneg_right hC)) h,
    le_trans (le_add_of_nonneg_left (add_nonneg hA hB)) h⟩

/-- A point within distance `radius` of the center has each coordinate
within `radius` of the center's coordinate. -/
lemma mem_ball_component_bounds (c : Vec3) (radius : ℝ) (hr : 0 ≤ radius) (p : Vec3)
    (hp : Vec3.norm (Vec3.sub p c) ≤ radius) :
    (c.x - radius ≤ p.x ∧ p.x ≤ c.x + radius) ∧
      (c.y - radius ≤ p.y ∧ p.y ≤ c.y + radius) ∧
      (c.z - radius ≤ p.z ∧ p.z ≤ c.z + radius) := by
  have hdot0 : 0 ≤ Vec3.dot (Vec3.sub p c) (Vec3.sub p c) := dot_self_nonneg _
  have hnn : Vec3.norm (Vec3.sub p c) * Vec3.norm (Vec3.sub p c) =
      Vec3.dot (Vec3.sub p c) (Vec3.sub p c) := Real.mul_self_sqrt hdot0
  have hsq : Vec3.dot (Vec3.sub p c) (Vec3.sub p c) ≤ radius * radius :=
    hnn ▸ mul_self_le_mul_self (Real.sqrt_nonneg _) hp
  have hsq' : (p.x - c.x) * (p.x - c.x) + (p.y - c.y) * (p.y - c.y) +
      (p.z - c.z) * (p.z - c.z) ≤ radius * radius := hsq
  obtain ⟨hA, hB, hC⟩ := sum3_le _ _ _ _ (mul_self_nonneg _) (mul_self_nonneg _)
    (mul_self_nonneg _) hsq'
  exact ⟨component_range _ _ _ hr hA, component_range _ _ _ hr hB, component_range _ _ _ hr hC⟩

/-- Concrete arithmetic facts for the sphere of radius 3 centered at
`(0,0,5)` and the ray from the origin along `(0,0,1)`. -/
lemma factsA :
    ((((0:ℝ) - 0) * 0 + (0 - 0) * 0) + (5 - 0) * 1 = 5) ∧
      ((((0:ℝ) - 0) * (0 - 0) + (0 - 0) * (0 - 0)) + (5 - 0) * (5 - 0) = 25) ∧
      ((5:ℝ) * 5 - 25 + 3 * 3 = 9) ∧
      (((0:ℝ) * 0 + 0 * 0) + 1 * 1 = 1) ∧
      ((9:ℝ) = 3 * 3) ∧
      ((0:ℝ) ≤ 9) ∧
      ((3:ℝ) * 3 < 25) ∧
      ((0:ℝ) ≤ 5) := by
  norm_num

/-- Concrete arithmetic facts for the sphere of radius 1 centered at
`(0,0,4)` and the ray from the origin along the non-unit direction `(0,0,2)`. -/
lemma factsB :
    ((((0:ℝ) - 0) * 0 + (0 - 0) * 0) + (4 - 0) * 2 = 8) ∧
      ((((0:ℝ) - 0) * (0 - 0) + (0 - 0) * (0 - 0)) + (4 - 0) * (4 - 0) = 16) ∧
      ((8:ℝ) * 8 - 16 + 1 * 1 = 49) ∧
      ((49:ℝ) = 7 * 7) ∧
      ((0:ℝ) ≤ 7) ∧
      ((8:ℝ) - 7 = 1) ∧
      (((0:ℝ) * 0 + 0 * 0) + 2 * 2 = 4) ∧
      ((4:ℝ) ≠ 1) ∧
      ((((0:ℝ) + 0 * 1 - 0) * (0 + 0 * 1 - 0) + (0 + 0 * 1 - 0) * (0 + 0 * 1 - 0)) +
          (0 + 2 * 1 - 4) * (0 + 2 * 1 - 4) ≠ 1 * 1) ∧
      ((0:ℝ) ≤ 49) := by
  norm_num

/-- Concrete arithmetic facts for the sphere of radius 3 centered at
`(0,0,-5)` and the ray from the origin along `(0,0,1)`. -/
lemma factsC :
    ((((0:ℝ) - 0) * 0 + (0 - 0) * 0) + (-5 - 0) * 1 = -5) ∧
      ((((0:ℝ) - 0) * (0 - 0) + (0 - 0) * (0 - 0)) + (-5 - 0) * (-5 - 0) = 25) ∧
      ((-5:ℝ) * -5 - 25 + 3 * 3 = 9) ∧
      ((-5:ℝ) < 0) ∧
      ((-5:ℝ) - 3 < 0) := by
  norm_num

/-- Concrete arithmetic facts for the camera-frame witness and the padded
cube bounds of the demo scene. -/
lemma factsD :
    ((0:ℝ) < ((1 * 0 + 0 * 0) + 0 * 1) * ((1 * 0 + 0 * 0) + 0 * 1) +
        ((0 * 0 + 1 * 0) + 0 * 1) * ((0 * 0 + 1 * 0) + 0 * 1) +
        ((0 * 0 + 0 * 0) + 1 * 1) * ((0 * 0 + 0 * 0) + 1 * 1)) ∧
      (-(1005 / 1000 : ℝ) = -1 - 5 / 1000) ∧
      ((1005 / 1000 : ℝ) = 1 + 5 / 1000) := by
  norm_num

/-- Claim C1: for a sphere with radius `r ≥ 0` (so `r2 = r*r`) and a ray
with unit-length direction, when the discriminant is nonnegative the
intersector returns a populated `Intersection` referencing the queried
sphere with distance `t = sd - sqrt(disc)`; the point `origin + t*direction`
lies on the sphere surface, and `t` is minimal among all real parameters
whose ray point lies on the sphere surface. -/
theorem sphereIntersect_hit_surface_minimal (sphere : Sphere) (ray : Ray)
    (hr : 0 ≤ sphere.r) (hd : Vec3.dot ray.d ray.d = 1)
    (hdisc : 0 ≤ sphereDisc sphere ray) (hr2 : sphere.r2 = sphere.r * sphere.r) :
    (∃ n, sphereIntersect sphere ray =
        Intersection.hit (raySD sphere ray - Real.sqrt (sphereDisc sphere ray)) sphere n) ∧
      Vec3.dot
          (Vec3.sub (rayPoint ray (raySD sphere ray - Real.sqrt (sphereDisc sphere ray)))
            sphere.center)
          (Vec3.sub (rayPoint ray (raySD sphere ray - Real.sqrt (sphereDisc sphere ray)))
            sphere.center) =
        sphere.r * sphere.r ∧
      ∀ t' : ℝ,
        Vec3.dot (Vec3.sub (rayPoint ray t') sphere.center)
            (Vec3.sub (rayPoint ray t') sphere.center) =
          sphere.r * sphere.r →
        raySD sphere ray - Real.sqrt (sphereDisc sphere ray) ≤ t' := by
  refine ⟨⟨Vec3.normalize
      (Vec3.sub (rayPoint ray (raySD sphere ray - Real.sqrt (sphereDisc sphere ray)))
        sphere.center), ?_⟩,
    surface_at_first_root sphere ray hd hdisc hr2, ?_⟩
  · rw [sphereIntersect_eq, if_neg (not_lt.mpr hdisc)]
  · intro t' ht'
    rw [surface_quadratic sphere ray hd] at ht'
    have hkey := key_identity t' (raySD sphere ray) (Real.sqrt (sphereDisc sphere ray))
      (raySS sphere ray) (sphere.r * sphere.r) (sqrt_disc_sq sphere ray hdisc hr2)
    exact ge_first_root t' (raySD sphere ray) (Real.sqrt (sphereDisc sphere ray))
      (Real.sqrt_nonneg _) (sub_eq_zero.mp (hkey.symm.trans (sub_eq_zero.mpr ht')))

/-- Witness for C1 at the sphere of radius 3 centered at `(0,0,5)` and the
ray from the origin along `(0,0,1)`; the discriminant there is 9. -/
theorem sphereIntersect_hit_surface_minimal_witness :
    (0 : ℝ) ≤ (Sphere.mk' ⟨0, 0, 5⟩ 3).r ∧
      Vec3.dot (⟨⟨0, 0, 0⟩, ⟨0, 0, 1⟩⟩ : Ray).d (⟨⟨0, 0, 0⟩, ⟨0, 0, 1⟩⟩ : Ray).d = 1 ∧
      (0 : ℝ) ≤ sphereDisc (Sphere.mk' ⟨0, 0, 5⟩ 3) ⟨⟨0, 0, 0⟩, ⟨0, 0, 1⟩⟩ ∧
      ((∃ n, sphereIntersect (Sphere.mk' ⟨0, 0, 5⟩ 3) ⟨⟨0, 0, 0⟩, ⟨0, 0, 1⟩⟩ =
          Intersection.hit
            (raySD (Sphere.mk' ⟨0, 0, 5⟩ 3) ⟨⟨0, 0, 0⟩, ⟨0, 0, 1⟩⟩ -
              Real.sqrt (sphereDisc (Sphere.mk' ⟨0, 0, 5⟩ 3) ⟨⟨0, 0, 0⟩, ⟨0, 0, 1⟩⟩))
            (Sphere.mk' ⟨0, 0, 5⟩ 3) n) ∧
        Vec3.dot
            (Vec3.sub
              (rayPoint ⟨⟨0, 0, 0⟩, ⟨0, 0, 1⟩⟩
                (raySD (Sphere.mk' ⟨0, 0, 5⟩ 3) ⟨⟨0, 0, 0⟩, ⟨0, 0, 1⟩⟩ -
                  Real.sqrt (sphereDisc (Sphere.mk' ⟨0, 0, 5⟩ 3) ⟨⟨0, 0, 0⟩, ⟨0, 0, 1⟩⟩)))
              (Sphere.mk' ⟨0, 0, 5⟩ 3).center)
            (Vec3.sub
              (rayPoint ⟨⟨0, 0, 0⟩, ⟨0, 0, 1⟩⟩
                (raySD (Sphere.mk' ⟨0, 0, 5⟩ 3) ⟨⟨0, 0, 0⟩, ⟨0, 0, 1⟩⟩ -
                  Real.sqrt (sphereDisc (Sphere.mk' ⟨0, 0, 5⟩ 3) ⟨⟨0, 0, 0⟩, ⟨0, 0, 1⟩⟩)))
              (Sphere.mk' ⟨0, 0, 5⟩ 3).center) =
          (Sphere.mk' ⟨0, 0, 5⟩ 3).r * (Sphere.mk' ⟨0, 0, 5⟩ 3).r ∧
        ∀ t' : ℝ,
          Vec3.dot
              (Vec3.sub (rayPoint ⟨⟨0, 0, 0⟩, ⟨0, 0, 1⟩⟩ t') (Sphere.mk' ⟨0, 0, 5⟩ 3).center)
              (Vec3.sub (rayPoint ⟨⟨0, 0, 0⟩, ⟨0, 0, 1⟩⟩ t') (Sphere.mk' ⟨0, 0, 5⟩ 3).center) =
            (Sphere.mk' ⟨0, 0, 5⟩ 3).r * (Sphere.mk' ⟨0, 0, 5⟩ 3).r →
          raySD (Sphere.mk' ⟨0, 0, 5⟩ 3) ⟨⟨0, 0, 0⟩, ⟨0, 0, 1⟩⟩ -
              Real.sqrt (sphereDisc (Sphere.mk' ⟨0, 0, 5⟩ 3) ⟨⟨0, 0, 0⟩, ⟨0, 0, 1⟩⟩) ≤ t') := by
  obtain ⟨a1r, a2r, a3, a4r, -, a6, -, -⟩ := factsA
  have a1 : raySD (Sphere.mk' ⟨0, 0, 5⟩ 3) ⟨⟨0, 0, 0⟩, ⟨0, 0, 1⟩⟩ = 5 := a1r
  have a2 : raySS (Sphere.mk' ⟨0, 0, 5⟩ 3) ⟨⟨0, 0, 0⟩, ⟨0, 0, 1⟩⟩ = 25 := a2r
  have adisc : sphereDisc (Sphere.mk' ⟨0, 0, 5⟩ 3) ⟨⟨0, 0, 0⟩, ⟨0, 0, 1⟩⟩ = 9 := by
    show raySD (Sphere.mk' ⟨0, 0, 5⟩ 3) ⟨⟨0, 0, 0⟩, ⟨0, 0, 1⟩⟩ *
        raySD (Sphere.mk' ⟨0, 0, 5⟩ 3) ⟨⟨0, 0, 0⟩, ⟨0, 0, 1⟩⟩ -
        raySS (Sphere.mk' ⟨0, 0, 5⟩ 3) ⟨⟨0, 0, 0⟩, ⟨0, 0, 1⟩⟩ + 3 * 3 = 9
    rw [a1, a2]
    exact a3
  have h1 : (0 : ℝ) ≤ (Sphere.mk' ⟨0, 0, 5⟩ 3).r := zero_le_three
  have h2 : Vec3.dot (⟨⟨0, 0, 0⟩, ⟨0, 0, 1⟩⟩ : Ray).d (⟨⟨0, 0, 0⟩, ⟨0, 0, 1⟩⟩ : Ray).d = 1 := a4r
  have h3 : (0 : ℝ) ≤ sphereDisc (Sphere.mk' ⟨0, 0, 5⟩ 3) ⟨⟨0, 0, 0⟩, ⟨0, 0, 1⟩⟩ := by
    rw [adisc]
    exact a6
  exact ⟨h1, h2, h3,
    sphereIntersect_hit_surface_minimal (Sphere.mk' ⟨0, 0, 5⟩ 3) ⟨⟨0, 0, 0⟩, ⟨0, 0, 1⟩⟩
      h1 h2 h3 rfl⟩

/-- Claim C3: for a sphere with radius `r > 0` and a ray with unit-length
direction whose origin lies strictly outside the sphere and whose `sd` is
nonnegative, if the discriminant is nonnegative then the intersector returns
a populated result with strictly positive distance and a unit-length surface
normal. -/
theorem sphereIntersect_outside_positive_t_unit_normal (sphere : Sphere) (ray : Ray)
    (hr : 0 < sphere.r) (hd : Vec3.dot ray.d ray.d = 1)
    (hout : sphere.r * sphere.r < raySS sphere ray) (hsd : 0 ≤ raySD sphere ray)
    (hdisc : 0 ≤ sphereDisc sphere ray) (hr2 : sphere.r2 = sphere.r * sphere.r) :
    ∃ t n, sphereIntersect sphere ray = Intersection.hit t sphere n ∧
      0 < t ∧ Vec3.dot n n = 1 := by
  have hdeq : sphereDisc sphere ray =
      raySD sphere ray * raySD sphere ray - raySS sphere ray + sphere.r * sphere.r :=
    congrArg (fun w => raySD sphere ray * raySD sphere ray - raySS sphere ray + w) hr2
  have hlt : sphereDisc sphere ray < raySD sphere ray * raySD sphere ray := by
    rw [hdeq]
    calc raySD sphere ray * raySD sphere ray - raySS sphere ray + sphere.r * sphere.r
        < raySD sphere ray * raySD sphere ray - raySS sphere ray + raySS sphere ray :=
          add_lt_add_left hout _
      _ = raySD sphere ray * raySD sphere ray := sub_add_cancel _ _
  have hqlt : Real.sqrt (sphereDisc sphere ray) < raySD sphere ray :=
    (Real.sqrt_lt_sqrt hdisc hlt).trans_eq (Real.sqrt_mul_self hsd)
  have hsurf := surface_at_first_root sphere ray hd hdisc hr2
  have hpos : 0 < Vec3.dot
      (Vec3.sub (rayPoint ray (raySD sphere ray - Real.sqrt (sphereDisc sphere ray)))
        sphere.center)
      (Vec3.sub (rayPoint ray (raySD sphere ray - Real.sqrt (sphereDisc sphere ray)))
        sphere.center) := lt_of_lt_of_eq (mul_pos hr hr) hsurf.symm
  refine ⟨raySD sphere ray - Real.sqrt (sphereDisc sphere ray),
    Vec3.normalize
      (Vec3.sub (rayPoint ray (raySD sphere ray - Real.sqrt (sphereDisc sphere ray)))
        sphere.center), ?_, sub_pos.mpr hqlt, dot_normalize_self _ hpos⟩
  rw [sphereIntersect_eq, if_neg (not_lt.mpr hdisc)]

/-- Witness for C3 at the sphere of radius 3 centered at `(0,0,5)` and the
ray from the origin along `(0,0,1)`. -/
theorem sphereIntersect_outside_positive_t_unit_normal_witness :
    (0 : ℝ) < (Sphere.mk' ⟨0, 0, 5⟩ 3).r ∧
      (Sphere.mk' ⟨0, 0, 5⟩ 3).r * (Sphere.mk' ⟨0, 0, 5⟩ 3).r <
        raySS (Sphere.mk' ⟨0, 0, 5⟩ 3) ⟨⟨0, 0, 0⟩, ⟨0, 0, 1⟩⟩ ∧
      (0 : ℝ) ≤ raySD (Sphere.mk' ⟨0, 0, 5⟩ 3) ⟨⟨0, 0, 0⟩, ⟨0, 0, 1⟩⟩ ∧
      ∃ t n,
        sphereIntersect (Sphere.mk' ⟨0, 0, 5⟩ 3) ⟨⟨0, 0, 0⟩, ⟨0, 0, 1⟩⟩ =
            Intersection.hit t (Sphere.mk' ⟨0, 0, 5⟩ 3) n ∧
          0 < t ∧ Vec3.dot n n = 1 := by
  obtain ⟨a1r, a2r, a3, a4r, -, a6, a8, a9⟩ := factsA
  have a1 : raySD (Sphere.mk' ⟨0, 0, 5⟩ 3) ⟨⟨0, 0, 0⟩, ⟨0, 0, 1⟩⟩ = 5 := a1r
  have a2 : raySS (Sphere.mk' ⟨0, 0, 5⟩ 3) ⟨⟨0, 0, 0⟩, ⟨0, 0, 1⟩⟩ = 25 := a2r
  have adisc : sphereDisc (Sphere.mk' ⟨0, 0, 5⟩ 3) ⟨⟨0, 0, 0⟩, ⟨0, 0, 1⟩⟩ = 9 := by
    show raySD (Sphere.mk' ⟨0, 0, 5⟩ 3) ⟨⟨0, 0, 0⟩, ⟨0, 0, 1⟩⟩ *
        raySD (Sphere.mk' ⟨0, 0, 5⟩ 3) ⟨⟨0, 0, 0⟩, ⟨0, 0, 1⟩⟩ -
        raySS (Sphere.mk' ⟨0, 0, 5⟩ 3) ⟨⟨0, 0, 0⟩, ⟨0, 0, 1⟩⟩ + 3 * 3 = 9
    rw [a1, a2]
    exact a3
  have h1 : (0 : ℝ) < (Sphere.mk' ⟨0, 0, 5⟩ 3).r := zero_lt_three
  have h2 : Vec3.dot (⟨⟨0, 0, 0⟩, ⟨0, 0, 1⟩⟩ : Ray).d (⟨⟨0, 0, 0⟩, ⟨0, 0, 1⟩⟩ : Ray).d = 1 := a4r
  have h3 : (Sphere.mk' ⟨0, 0, 5⟩ 3).r * (Sphere.mk' ⟨0, 0, 5⟩ 3).r <
      raySS (Sphere.mk' ⟨0, 0, 5⟩ 3) ⟨⟨0, 0, 0⟩, ⟨0, 0, 1⟩⟩ := by
    rw [a2]
    exact a8
  have h4 : (0 : ℝ) ≤ raySD (Sphere.mk' ⟨0, 0, 5⟩ 3) ⟨⟨0, 0, 0⟩, ⟨0, 0, 1⟩⟩ := by
    rw [a1]
    exact a9
  have h5 : (0 : ℝ) ≤ sphereDisc (Sphere.mk' ⟨0, 0, 5⟩ 3) ⟨⟨0, 0, 0⟩, ⟨0, 0, 1⟩⟩ := by
    rw [adisc]
    exact a6
  exact ⟨h1, h3, h4,
    sphereIntersect_outside_positive_t_unit_normal (Sphere.mk' ⟨0, 0, 5⟩ 3)
      ⟨⟨0, 0, 0⟩, ⟨0, 0, 1⟩⟩ h1 h2 h3 h4 h5 rfl⟩

/-- Claim C2: `SphereIntersector::operator()` returns the empty (no-hit)
`Intersection` if and only if the discriminant `sd*sd - ss + r2` is
negative; whenever the discriminant is nonnegative it returns a populated
intersection, regardless of the sign of `t`. -/
theorem sphereIntersect_miss_iff_disc_neg (sphere : Sphere) (ray : Ray) :
    (sphereIntersect sphere ray = Intersection.miss ↔ sphereDisc sphere ray < 0) ∧
      (0 ≤ sphereDisc sphere ray →
        ∃ t n, sphereIntersect sphere ray = Intersection.hit t sphere n) := by
  constructor
  · constructor
    · intro h
      by_contra hnot
      rw [sphereIntersect_eq, if_neg hnot] at h
      exact Intersection.noConfusion h
    · intro h
      rw [sphereIntersect_eq, if_pos h]
  · intro h
    exact ⟨_, _, by rw [sphereIntersect_eq, if_neg (not_lt.mpr h)]⟩

/-- Witness for C2 at a concrete sphere and ray. -/
theorem sphereIntersect_miss_iff_disc_neg_witness :
    (0 : ℝ) ≤ sphereDisc (Sphere.mk' ⟨0, 0, 5⟩ 3) ⟨⟨0, 0, 0⟩, ⟨0, 0, 1⟩⟩ ∧
      ∃ t n,
        sphereIntersect (Sphere.mk' ⟨0, 0, 5⟩ 3) ⟨⟨0, 0, 0⟩, ⟨0, 0, 1⟩⟩ =
          Intersection.hit t (Sphere.mk' ⟨0, 0, 5⟩ 3) n := by
  obtain ⟨a1r, a2r, a3, -, -, a6, -, -⟩ := factsA
  have a1 : raySD (Sphere.mk' ⟨0, 0, 5⟩ 3) ⟨⟨0, 0, 0⟩, ⟨0, 0, 1⟩⟩ = 5 := a1r
  have a2 : raySS (Sphere.mk' ⟨0, 0, 5⟩ 3) ⟨⟨0, 0, 0⟩, ⟨0, 0, 1⟩⟩ = 25 := a2r
  have adisc : sphereDisc (Sphere.mk' ⟨0, 0, 5⟩ 3) ⟨⟨0, 0, 0⟩, ⟨0, 0, 1⟩⟩ = 9 := by
    show raySD (Sphere.mk' ⟨0, 0, 5⟩ 3) ⟨⟨0, 0, 0⟩, ⟨0, 0, 1⟩⟩ *
        raySD (Sphere.mk' ⟨0, 0, 5⟩ 3) ⟨⟨0, 0, 0⟩, ⟨0, 0, 1⟩⟩ -
        raySS (Sphere.mk' ⟨0, 0, 5⟩ 3) ⟨⟨0, 0, 0⟩, ⟨0, 0, 1⟩⟩ + 3 * 3 = 9
    rw [a1, a2]
    exact a3
  have h3 : (0 : ℝ) ≤ sphereDisc (Sphere.mk' ⟨0, 0, 5⟩ 3) ⟨⟨0, 0, 0⟩, ⟨0, 0, 1⟩⟩ := by
    rw [adisc]
    exact a6
  exact ⟨h3,
    (sphereIntersect_miss_iff_disc_neg (Sphere.mk' ⟨0, 0, 5⟩ 3) ⟨⟨0, 0, 0⟩, ⟨0, 0, 1⟩⟩).2 h3⟩

/-- Claim C4: for radius `r ≥ 0`, the box returned by
`SphereBoxConverter::operator()` is exactly the minimal axis-aligned
bounding box of the sphere: it contains every point within distance `r` of
the center, and every axis-aligned box containing all such points contains
it. -/
theorem sphereBox_is_minimal_aabb (c : Vec3) (radius : ℝ) (hr : 0 ≤ radius) :
    (∀ p : Vec3, Vec3.norm (Vec3.sub p c) ≤ radius →
        ((sphereBoxConverter (Sphere.mk' c radius)).min.x ≤ p.x ∧
            p.x ≤ (sphereBoxConverter (Sphere.mk' c radius)).max.x) ∧
          ((sphereBoxConverter (Sphere.mk' c radius)).min.y ≤ p.y ∧
            p.y ≤ (sphereBoxConverter (Sphere.mk' c radius)).max.y) ∧
          ((sphereBoxConverter (Sphere.mk' c radius)).min.z ≤ p.z ∧
            p.z ≤ (sphereBoxConverter (Sphere.mk' c radius)).max.z)) ∧
      ∀ lo hi : Vec3,
        (∀ p : Vec3, Vec3.norm (Vec3.sub p c) ≤ radius →
            (lo.x ≤ p.x ∧ p.x ≤ hi.x) ∧ (lo.y ≤ p.y ∧ p.y ≤ hi.y) ∧
              (lo.z ≤ p.z ∧ p.z ≤ hi.z)) →
          (lo.x ≤ (sphereBoxConverter (Sphere.mk' c radius)).min.x ∧
              (sphereBoxConverter (Sphere.mk' c radius)).max.x ≤ hi.x) ∧
            (lo.y ≤ (sphereBoxConverter (Sphere.mk' c radius)).min.y ∧
              (sphereBoxConverter (Sphere.mk' c radius)).max.y ≤ hi.y) ∧
            (lo.z ≤ (sphereBoxConverter (Sphere.mk' c radius)).min.z ∧
              (sphereBoxConverter (Sphere.mk' c radius)).max.z ≤ hi.z) := by
  constructor
  · intro p hp
    exact mem_ball_component_bounds c radius hr p hp
  · intro lo hi h
    have hm : ∀ d : Vec3, Vec3.dot d d = radius * radius →
        Vec3.norm (Vec3.sub (Vec3.add c d) c) ≤ radius := by
      intro d hd
      rw [vec3_sub_add_cancel, norm_of_dot_eq d radius hr hd]
    have dxp : Vec3.dot ⟨radius, 0, 0⟩ ⟨radius, 0, 0⟩ = radius * radius := by
      show radius * radius + 0 * 0 + 0 * 0 = radius * radius
      rw [mul_zero, add_zero, add_zero]
    have dxm : Vec3.dot ⟨-radius, 0, 0⟩ ⟨-radius, 0, 0⟩ = radius * radius := by
      show -radius * -radius + 0 * 0 + 0 * 0 = radius * radius
      rw [neg_mul_neg, mul_zero, add_zero, add_zero]
    have dyp : Vec3.dot ⟨0, radius, 0⟩ ⟨0, radius, 0⟩ = radius * radius := by
      show 0 * 0 + radius * radius + 0 * 0 = radius * radius
      rw [mul_zero, zero_add, add_zero]
    have dym : Vec3.dot ⟨0, -radius, 0⟩ ⟨0, -radius, 0⟩ = radius * radius := by
      show 0 * 0 + -radius * -radius + 0 * 0 = radius * radius
      rw [neg_mul_neg, mul_zero, zero_add, add_zero]
    have dzp : Vec3.dot ⟨0, 0, radius⟩ ⟨0, 0, radius⟩ = radius * radius := by
      show 0 * 0 + 0 * 0 + radius * radius = radius * radius
      rw [mul_zero, add_zero, zero_add]
    have dzm : Vec3.dot ⟨0, 0, -radius⟩ ⟨0, 0, -radius⟩ = radius * radius := by
      show 0 * 0 + 0 * 0 + -radius * -radius = radius * radius
      rw [neg_mul_neg, mul_zero, add_zero, zero_add]
    have hxp := h (Vec3.add c ⟨radius, 0, 0⟩) (hm ⟨radius, 0, 0⟩ dxp)
    have hxm := h (Vec3.add c ⟨-radius, 0, 0⟩) (hm ⟨-radius, 0, 0⟩ dxm)
    have hyp := h (Vec3.add c ⟨0, radius, 0⟩) (hm ⟨0, radius, 0⟩ dyp)
    have hym := h (Vec3.add c ⟨0, -radius, 0⟩) (hm ⟨0, -radius, 0⟩ dym)
    have hzp := h (Vec3.add c ⟨0, 0, radius⟩) (hm ⟨0, 0, radius⟩ dzp)
    have hzm := h (Vec3.add c ⟨0, 0, -radius⟩) (hm ⟨0, 0, -radius⟩ dzm)
    refine ⟨⟨?_, hxp.1.2⟩, ⟨?_, hyp.2.1.2⟩, ⟨?_, hzp.2.2.2⟩⟩
    · have hh : lo.x ≤ c.x + -radius := hxm.1.1
      rwa [← sub_eq_add_neg] at hh
    · have hh : lo.y ≤ c.y + -radius := hym.2.1.1
      rwa [← sub_eq_add_neg] at hh
    · have hh : lo.z ≤ c.z + -radius := hzm.2.2.1
      rwa [← sub_eq_add_neg] at hh

/-- Witness for C4 at the unit sphere centered at the origin. -/
theorem sphereBox_is_minimal_aabb_witness :
    (0 : ℝ) ≤ 1 ∧
      ((∀ p : Vec3, Vec3.norm (Vec3.sub p ⟨0, 0, 0⟩) ≤ 1 →
          ((sphereBoxConverter (Sphere.mk' ⟨0, 0, 0⟩ 1)).min.x ≤ p.x ∧
              p.x ≤ (sphereBoxConverter (Sphere.mk' ⟨0, 0, 0⟩ 1)).max.x) ∧
            ((sphereBoxConverter (Sphere.mk' ⟨0, 0, 0⟩ 1)).min.y ≤ p.y ∧
              p.y ≤ (sphereBoxConverter (Sphere.mk' ⟨0, 0, 0⟩ 1)).max.y) ∧
            ((sphereBoxConverter (Sphere.mk' ⟨0, 0, 0⟩ 1)).min.z ≤ p.z ∧
              p.z ≤ (sphereBoxConverter (Sphere.mk' ⟨0, 0, 0⟩ 1)).max.z)) ∧
        ∀ lo hi : Vec3,
          (∀ p : Vec3, Vec3.norm (Vec3.sub p ⟨0, 0, 0⟩) ≤ 1 →
              (lo.x ≤ p.x ∧ p.x ≤ hi.x) ∧ (lo.y ≤ p.y ∧ p.y ≤ hi.y) ∧
                (lo.z ≤ p.z ∧ p.z ≤ hi.z)) →
            (lo.x ≤ (sphereBoxConverter (Sphere.mk' ⟨0, 0, 0⟩ 1)).min.x ∧
                (sphereBoxConverter (Sphere.mk' ⟨0, 0, 0⟩ 1)).max.x ≤ hi.x) ∧
              (lo.y ≤ (sphereBoxConverter (Sphere.mk' ⟨0, 0, 0⟩ 1)).min.y ∧
                (sphereBoxConverter (Sphere.mk' ⟨0, 0, 0⟩ 1)).max.y ≤ hi.y) ∧
              (lo.z ≤ (sphereBoxConverter (Sphere.mk' ⟨0, 0, 0⟩ 1)).min.z ∧
                (sphereBoxConverter (Sphere.mk' ⟨0, 0, 0⟩ 1)).max.z ≤ hi.z)) :=
  ⟨zero_le_one, sphereBox_is_minimal_aabb ⟨0, 0, 0⟩ 1 zero_le_one⟩

/-- Claim C5: the box returned by `SphereBoxConverter::operator()` for a
sphere of radius `r ≥ 0` satisfies the bounding-box invariant: its min
corner is componentwise less than or equal to its max corner. -/
theorem sphereBox_min_le_max (c : Vec3) (radius : ℝ) (hr : 0 ≤ radius) :
    (sphereBoxConverter (Sphere.mk' c radius)).min.x ≤
        (sphereBoxConverter (Sphere.mk' c radius)).max.x ∧
      (sphereBoxConverter (Sphere.mk' c radius)).min.y ≤
        (sphereBoxConverter (Sphere.mk' c radius)).max.y ∧
      (sphereBoxConverter (Sphere.mk' c radius)).min.z ≤
        (sphereBoxConverter (Sphere.mk' c radius)).max.z :=
  ⟨le_trans (sub_le_self _ hr) (le_add_of_nonneg_right hr),
    le_trans (sub_le_self _ hr) (le_add_of_nonneg_right hr),
    le_trans (sub_le_self _ hr) (le_add_of_nonneg_right hr)⟩

/-- Witness for C5 at radius 1. -/
theorem sphereBox_min_le_max_witness :
    (0 : ℝ) ≤ 1 ∧
      ((sphereBoxConverter (Sphere.mk' ⟨0, 0, 0⟩ 1)).min.x ≤
          (sphereBoxConverter (Sphere.mk' ⟨0, 0, 0⟩ 1)).max.x ∧
        (sphereBoxConverter (Sphere.mk' ⟨0, 0, 0⟩ 1)).min.y ≤
          (sphereBoxConverter (Sphere.mk' ⟨0, 0, 0⟩ 1)).max.y ∧
        (sphereBoxConverter (Sphere.mk' ⟨0, 0, 0⟩ 1)).min.z ≤
          (sphereBoxConverter (Sphere.mk' ⟨0, 0, 0⟩ 1)).max.z) :=
  ⟨zero_le_one, sphereBox_min_le_max ⟨0, 0, 0⟩ 1 zero_le_one⟩

/-- Claim C6: `SphereBoxConverter::operator()` and
`SphereIntersector::operator()` are deterministic pure functions of their
arguments: two invocations with equal arguments produce equal results, with
no dependence on any other program state (the embedding takes no state). -/
theorem sphere_capabilities_deterministic (s1 s2 : Sphere) (r1 r2 : Ray)
    (hs : s1 = s2) (hr : r1 = r2) :
    sphereBoxConverter s1 = sphereBoxConverter s2 ∧
      sphereIntersect s1 r1 = sphereIntersect s2 r2 := by
  subst hs
  subst hr
  exact ⟨rfl, rfl⟩

/-- Witness for C6 at a concrete sphere and ray. -/
theorem sphere_capabilities_deterministic_witness :
    sphereBoxConverter (Sphere.mk' ⟨1, 2, 3⟩ 1) = sphereBoxConverter (Sphere.mk' ⟨1, 2, 3⟩ 1) ∧
      sphereIntersect (Sphere.mk' ⟨1, 2, 3⟩ 1) ⟨⟨0, 0, 0⟩, ⟨0, 0, 1⟩⟩ =
        sphereIntersect (Sphere.mk' ⟨1, 2, 3⟩ 1) ⟨⟨0, 0, 0⟩, ⟨0, 0, 1⟩⟩ :=
  sphere_capabilities_deterministic (Sphere.mk' ⟨1, 2, 3⟩ 1) (Sphere.mk' ⟨1, 2, 3⟩ 1)
    ⟨⟨0, 0, 0⟩, ⟨0, 0, 1⟩⟩ ⟨⟨0, 0, 0⟩, ⟨0, 0, 1⟩⟩ rfl rfl

/-- Claim C7: `SphereIntersector::operator()` does not mutate the sphere or
the ray passed to it: after the call both arguments equal their pre-call
values. -/
theorem sphereIntersect_frame (sphere : Sphere) (ray : Ray) :
    (sphereIntersectCall sphere ray).2.1 = sphere ∧
      (sphereIntersectCall sphere ray).2.2 = ray :=
  ⟨rfl, rfl⟩

/-- Both `rand01` bounds follow from the bounds on the raw `rand()` value. -/
lemma rand01_bounds (RM x : ℝ) (hRM : 0 < RM) (h0 : 0 ≤ x) (h1 : x ≤ RM) :
    0 ≤ rand01 RM x ∧ rand01 RM x ≤ 1 :=
  ⟨mul_nonneg h0 (one_div_nonneg.mpr hRM.le),
    by show x * (1 / RM) ≤ 1; rw [mul_one_div]; exact (div_le_one hRM).mpr h1⟩

/-- Scaling a `[0,1]` sample by 2 and shifting by 1 lands in `[-1,1]`. -/
lemma unit_interval_scale (p : ℝ) (h0 : 0 ≤ p) (h1 : p ≤ 1) :
    -1 ≤ p * 2 - 1 ∧ p * 2 - 1 ≤ 1 := by
  constructor
  · exact le_sub_iff_add_le.mpr
      (by rw [neg_add_cancel]; exact mul_nonneg h0 zero_le_two)
  · have h2 : p * 2 ≤ 2 := by
      have h3 := mul_le_mul_of_nonneg_right h1 zero_le_two
      rwa [one_mul] at h3
    exact sub_le_iff_le_add.mpr (by rw [one_add_one_eq_two]; exact h2)

/-- Padding a `[-1,1]` coordinate by the sphere radius keeps it within the
`[-1.005, 1.005]` cube. -/
lemma pad_bounds (a : ℝ) (h0 : -1 ≤ a) (h1 : a ≤ 1) :
    -(1005 / 1000) ≤ a - 5 / 1000 ∧ a + 5 / 1000 ≤ 1005 / 1000 := by
  obtain ⟨-, e1, e2⟩ := factsD
  constructor
  · rw [e1]
    exact sub_le_sub_right h0 _
  · rw [e2]
    exact add_le_add_right h1 _

/-- Claim C8: assuming `rand()` returns values in `[0, RAND_MAX]`, the
scene-construction loop builds exactly 1,000,000 spheres, each with radius
0.005 and with every center component in `[-1, 1]`, so every sphere's
bounding box lies within the cube `[-1.005, 1.005]^3`. -/
theorem buildObjects_count_radius_bounds (RM : ℝ) (stream : ℕ → ℝ) (hRM : 0 < RM)
    (hs : ∀ i, 0 ≤ stream i ∧ stream i ≤ RM) :
    (buildObjects RM stream 1000000).length = 1000000 ∧
      ∀ s ∈ buildObjects RM stream 1000000,
        s.r = 5 / 1000 ∧
          (-1 ≤ s.center.x ∧ s.center.x ≤ 1) ∧
          (-1 ≤ s.center.y ∧ s.center.y ≤ 1) ∧
          (-1 ≤ s.center.z ∧ s.center.z ≤ 1) ∧
          (-(1005 / 1000) ≤ (sphereBoxConverter s).min.x ∧
            (sphereBoxConverter s).max.x ≤ 1005 / 1000) ∧
          (-(1005 / 1000) ≤ (sphereBoxConverter s).min.y ∧
            (sphereBoxConverter s).max.y ≤ 1005 / 1000) ∧
          (-(1005 / 1000) ≤ (sphereBoxConverter s).min.z ∧
            (sphereBoxConverter s).max.z ≤ 1005 / 1000) := by
  constructor
  · exact (List.length_map _ _).trans (List.length_range _)
  · intro s hmem
    obtain ⟨i, -, rfl⟩ := List.mem_map.mp hmem
    obtain ⟨hx0, hx1⟩ := rand01_bounds RM (stream (3 * i)) hRM (hs _).1 (hs _).2
    obtain ⟨hy0, hy1⟩ := rand01_bounds RM (stream (3 * i + 1)) hRM (hs _).1 (hs _).2
    obtain ⟨hz0, hz1⟩ := rand01_bounds RM (stream (3 * i + 2)) hRM (hs _).1 (hs _).2
    obtain ⟨hcx0, hcx1⟩ := unit_interval_scale _ hx0 hx1
    obtain ⟨hcy0, hcy1⟩ := unit_interval_scale _ hy0 hy1
    obtain ⟨hcz0, hcz1⟩ := unit_interval_scale _ hz0 hz1
    obtain ⟨hbx0, hbx1⟩ := pad_bounds _ hcx0 hcx1
    obtain ⟨hby0, hby1⟩ := pad_bounds _ hcy0 hcy1
    obtain ⟨hbz0, hbz1⟩ := pad_bounds _ hcz0 hcz1
    exact ⟨rfl, ⟨hcx0, hcx1⟩, ⟨hcy0, hcy1⟩, ⟨hcz0, hcz1⟩,
      ⟨hbx0, hbx1⟩, ⟨hby0, hby1⟩, ⟨hbz0, hbz1⟩⟩

/-- Witness for C8 with `RAND_MAX = 1` and the all-zero `rand()` stream. -/
theorem buildObjects_count_radius_bounds_witness :
    (0 : ℝ) < 1 ∧ (∀ i : ℕ, 0 ≤ (fun _ : ℕ => (0 : ℝ)) i ∧ (fun _ : ℕ => (0 : ℝ)) i ≤ 1) ∧
      ((buildObjects 1 (fun _ : ℕ => (0 : ℝ)) 1000000).length = 1000000 ∧
        ∀ s ∈ buildObjects 1 (fun _ : ℕ => (0 : ℝ)) 1000000,
          s.r = 5 / 1000 ∧
            (-1 ≤ s.center.x ∧ s.center.x ≤ 1) ∧
            (-1 ≤ s.center.y ∧ s.center.y ≤ 1) ∧
            (-1 ≤ s.center.z ∧ s.center.z ≤ 1) ∧
            (-(1005 / 1000) ≤ (sphereBoxConverter s).min.x ∧
              (sphereBoxConverter s).max.x ≤ 1005 / 1000) ∧
            (-(1005 / 1000) ≤ (sphereBoxConverter s).min.y ∧
              (sphereBoxConverter s).max.y ≤ 1005 / 1000) ∧
            (-(1005 / 1000) ≤ (sphereBoxConverter s).min.z ∧
              (sphereBoxConverter s).max.z ≤ 1005 / 1000)) :=
  ⟨zero_lt_one, fun _ => ⟨le_refl 0, zero_le_one⟩,
    buildObjects_count_radius_bounds 1 (fun _ => 0) zero_lt_one
      (fun _ => ⟨le_refl 0, zero_le_one⟩)⟩

/-- Claim C9: the intersector's distance computation is only correct for
unit-length ray directions: there is a sphere and a ray with non-unit
direction whose populated result's `t` does not place `origin + t*direction`
on the sphere surface; and the per-pixel ray direction of `main` is a
`normalize` application, hence unit length whenever the normalized vector is
nonzero. -/
theorem nonunit_direction_breaks_and_main_normalizes :
    (∃ (sphere : Sphere) (ray : Ray) (t : ℝ) (n : Vec3),
        Vec3.dot ray.d ray.d ≠ 1 ∧
          sphereIntersect sphere ray = Intersection.hit t sphere n ∧
          Vec3.dot (Vec3.sub (rayPoint ray t) sphere.center)
              (Vec3.sub (rayPoint ray t) sphere.center) ≠
            sphere.r * sphere.r) ∧
      ∀ (cu cv cd : Vec3) (u v fov : ℝ),
        0 < Vec3.dot
            (Vec3.add (Vec3.add (Vec3.smul cu u) (Vec3.smul cv v)) (Vec3.smul cd fov))
            (Vec3.add (Vec3.add (Vec3.smul cu u) (Vec3.smul cv v)) (Vec3.smul cd fov)) →
          Vec3.dot (mainRayDirection cu cv cd u v fov) (mainRayDirection cu cv cd u v fov) = 1 := by
  constructor
  · obtain ⟨b1r, b2r, b3, b4, b5, b6, b7r, b8, b9r, b10⟩ := factsB
    have b1 : raySD (Sphere.mk' ⟨0, 0, 4⟩ 1) ⟨⟨0, 0, 0⟩, ⟨0, 0, 2⟩⟩ = 8 := b1r
    have b2 : raySS (Sphere.mk' ⟨0, 0, 4⟩ 1) ⟨⟨0, 0, 0⟩, ⟨0, 0, 2⟩⟩ = 16 := b2r
    have bdisc : sphereDisc (Sphere.mk' ⟨0, 0, 4⟩ 1) ⟨⟨0, 0, 0⟩, ⟨0, 0, 2⟩⟩ = 49 := by
      show raySD (Sphere.mk' ⟨0, 0, 4⟩ 1) ⟨⟨0, 0, 0⟩, ⟨0, 0, 2⟩⟩ *
          raySD (Sphere.mk' ⟨0, 0, 4⟩ 1) ⟨⟨0, 0, 0⟩, ⟨0, 0, 2⟩⟩ -
          raySS (Sphere.mk' ⟨0, 0, 4⟩ 1) ⟨⟨0, 0, 0⟩, ⟨0, 0, 2⟩⟩ + 1 * 1 = 49
      rw [b1, b2]
      exact b3
    have ht : raySD (Sphere.mk' ⟨0, 0, 4⟩ 1) ⟨⟨0, 0, 0⟩, ⟨0, 0, 2⟩⟩ -
        Real.sqrt (sphereDisc (Sphere.mk' ⟨0, 0, 4⟩ 1) ⟨⟨0, 0, 0⟩, ⟨0, 0, 2⟩⟩) = 1 := by
      rw [b1, bdisc, b4, Real.sqrt_mul_self b5]
      exact b6
    have b7 : Vec3.dot (⟨⟨0, 0, 0⟩, ⟨0, 0, 2⟩⟩ : Ray).d (⟨⟨0, 0, 0⟩, ⟨0, 0, 2⟩⟩ : Ray).d = 4 := b7r
    refine ⟨Sphere.mk' ⟨0, 0, 4⟩ 1, ⟨⟨0, 0, 0⟩, ⟨0, 0, 2⟩⟩,
      raySD (Sphere.mk' ⟨0, 0, 4⟩ 1) ⟨⟨0, 0, 0⟩, ⟨0, 0, 2⟩⟩ -
        Real.sqrt (sphereDisc (Sphere.mk' ⟨0, 0, 4⟩ 1) ⟨⟨0, 0, 0⟩, ⟨0, 0, 2⟩⟩),
      Vec3.normalize
        (Vec3.sub
          (rayPoint ⟨⟨0, 0, 0⟩, ⟨0, 0, 2⟩⟩
            (raySD (Sphere.mk' ⟨0, 0, 4⟩ 1) ⟨⟨0, 0, 0⟩, ⟨0, 0, 2⟩⟩ -
              Real.sqrt (sphereDisc (Sphere.mk' ⟨0, 0, 4⟩ 1) ⟨⟨0, 0, 0⟩, ⟨0, 0, 2⟩⟩)))
          (Sphere.mk' ⟨0, 0, 4⟩ 1).center), ?_, ?_, ?_⟩
    · exact fun hcon => b8 (b7.symm.trans hcon)
    · rw [sphereIntersect_eq, if_neg (by rw [bdisc]; exact not_lt.mpr b10)]
    · rw [ht]
      exact b9r
  · exact fun cu cv cd u v fov h => dot_normalize_self _ h

/-- Witness for C9's normalization clause at a concrete camera frame. -/
theorem nonunit_direction_breaks_and_main_normalizes_witness :
    0 < Vec3.dot
        (Vec3.add (Vec3.add (Vec3.smul ⟨1, 0, 0⟩ 0) (Vec3.smul ⟨0, 1, 0⟩ 0)) (Vec3.smul ⟨0, 0, 1⟩ 1))
        (Vec3.add (Vec3.add (Vec3.smul ⟨1, 0, 0⟩ 0) (Vec3.smul ⟨0, 1, 0⟩ 0)) (Vec3.smul ⟨0, 0, 1⟩ 1)) ∧
      Vec3.dot (mainRayDirection ⟨1, 0, 0⟩ ⟨0, 1, 0⟩ ⟨0, 0, 1⟩ 0 0 1)
          (mainRayDirection ⟨1, 0, 0⟩ ⟨0, 1, 0⟩ ⟨0, 0, 1⟩ 0 0 1) = 1 := by
  obtain ⟨d1, -, -⟩ := factsD
  have hpos : 0 < Vec3.dot
      (Vec3.add (Vec3.add (Vec3.smul ⟨1, 0, 0⟩ 0) (Vec3.smul ⟨0, 1, 0⟩ 0)) (Vec3.smul ⟨0, 0, 1⟩ 1))
      (Vec3.add (Vec3.add (Vec3.smul ⟨1, 0, 0⟩ 0) (Vec3.smul ⟨0, 1, 0⟩ 0)) (Vec3.smul ⟨0, 0, 1⟩ 1)) := d1
  exact ⟨hpos,
    nonunit_direction_breaks_and_main_normalizes.2 ⟨1, 0, 0⟩ ⟨0, 1, 0⟩ ⟨0, 0, 1⟩ 0 0 1 hpos⟩

/-- Claim C10: the intersector can report hits behind the ray origin: there
is a sphere and a unit-direction ray with origin strictly outside the sphere
and the sphere center behind the origin (`sd < 0`), with nonnegative
discriminant, for which a populated `Intersection` with strictly negative
`t` is returned — no `t ≥ 0` filtering happens in the capability. -/
theorem sphereIntersect_hit_behind_origin :
    ∃ (sphere : Sphere) (ray : Ray),
      0 < sphere.r ∧ sphere.r2 = sphere.r * sphere.r ∧
        Vec3.dot ray.d ray.d = 1 ∧
        sphere.r * sphere.r < raySS sphere ray ∧
        raySD sphere ray < 0 ∧
        0 ≤ sphereDisc sphere ray ∧
        ∃ t n, sphereIntersect sphere ray = Intersection.hit t sphere n ∧ t < 0 := by
  obtain ⟨-, -, -, a4r, a5, a6, a8, -⟩ := factsA
  obtain ⟨c1r, c2r, c3, c4, c5⟩ := factsC
  have c1 : raySD (Sphere.mk' ⟨0, 0, -5⟩ 3) ⟨⟨0, 0, 0⟩, ⟨0, 0, 1⟩⟩ = -5 := c1r
  have c2 : raySS (Sphere.mk' ⟨0, 0, -5⟩ 3) ⟨⟨0, 0, 0⟩, ⟨0, 0, 1⟩⟩ = 25 := c2r
  have cdisc : sphereDisc (Sphere.mk' ⟨0, 0, -5⟩ 3) ⟨⟨0, 0, 0⟩, ⟨0, 0, 1⟩⟩ = 9 := by
    show raySD (Sphere.mk' ⟨0, 0, -5⟩ 3) ⟨⟨0, 0, 0⟩, ⟨0, 0, 1⟩⟩ *
        raySD (Sphere.mk' ⟨0, 0, -5⟩ 3) ⟨⟨0, 0, 0⟩, ⟨0, 0, 1⟩⟩ -
        raySS (Sphere.mk' ⟨0, 0, -5⟩ 3) ⟨⟨0, 0, 0⟩, ⟨0, 0, 1⟩⟩ + 3 * 3 = 9
    rw [c1, c2]
    exact c3
  refine ⟨Sphere.mk' ⟨0, 0, -5⟩ 3, ⟨⟨0, 0, 0⟩, ⟨0, 0, 1⟩⟩, zero_lt_three, rfl, a4r, ?_, ?_, ?_,
    raySD (Sphere.mk' ⟨0, 0, -5⟩ 3) ⟨⟨0, 0, 0⟩, ⟨0, 0, 1⟩⟩ -
      Real.sqrt (sphereDisc (Sphere.mk' ⟨0, 0, -5⟩ 3) ⟨⟨0, 0, 0⟩, ⟨0, 0, 1⟩⟩),
    Vec3.normalize
      (Vec3.sub
        (rayPoint ⟨⟨0, 0, 0⟩, ⟨0, 0, 1⟩⟩
          (raySD (Sphere.mk' ⟨0, 0, -5⟩ 3) ⟨⟨0, 0, 0⟩, ⟨0, 0, 1⟩⟩ -
            Real.sqrt (sphereDisc (Sphere.mk' ⟨0, 0, -5⟩ 3) ⟨⟨0, 0, 0⟩, ⟨0, 0, 1⟩⟩)))
        (Sphere.mk' ⟨0, 0, -5⟩ 3).center), ?_, ?_⟩
  · rw [c2]
    exact a8
  · rw [c1]
    exact c4
  · rw [cdisc]
    exact a6
  · rw [sphereIntersect_eq, if_neg (by rw [cdisc]; exact not_lt.mpr a6)]
  · rw [c1, cdisc, a5, Real.sqrt_mul_self zero_le_three]
    exact c5

end
